import Mathlib

/-!
Verification of the Blobulator particle engine and adaptive audio analyzer.

Shallow embedding of the code in `src/components/wavefront/Blobulator.tsx` and
the `useAdaptiveAudio` hook. JavaScript numbers are modelled as rationals
(`ℚ`), frame ages as naturals, and the per-frame mutation loops as pure
functions on lists of particles. `Math.sqrt` (used only for the standard
deviation) is modelled with `Real.sqrt` on top of a rational variance.
-/

/-- Particle record: `WaveFrontBlob` from `types.ts` together with the
`lifecycle` and `dying` fields that `Blobulator.tsx` adds to every blob it
creates. -/
structure WaveFrontBlob where
  id : String
  x : ℚ
  y : ℚ
  vx : ℚ
  vy : ℚ
  direction : ℚ
  generation : ℕ
  size : ℚ
  age : ℕ
  isFrontier : Bool
  colorIndex : ℕ
  lifecycle : ℚ
  dying : Bool
deriving DecidableEq, Repr

/-- `LIFECYCLE_FADE_RATE = 0.003` (rate per ms). -/
def LIFECYCLE_FADE_RATE : ℚ := 3 / 1000

/-- `LIFECYCLE_REMOVE_THRESHOLD = 0.005`. -/
def LIFECYCLE_REMOVE_THRESHOLD : ℚ := 5 / 1000

/-- `MIN_POPULATION = 40`. -/
def MIN_POPULATION : ℕ := 40

/-- `SOFT_CAP_START = 130`. -/
def SOFT_CAP_START : ℕ := 130

/-- `HARD_CAP_LIMIT = 400`. -/
def HARD_CAP_LIMIT : ℕ := 400

/-- `HARD_CAP_TARGET = 350`. -/
def HARD_CAP_TARGET : ℕ := 350

/-- Cell table of the spatial hash: cell key ↦ indices stored in that cell.
The source keys its `Map` by the string `` `${cellX},${cellY}` ``, which is an
injective encoding of the integer pair, so the table is modelled as a function
on `ℤ × ℤ`; a key that was never inserted maps to the empty list. -/
abbrev CellMap := ℤ × ℤ → List ℕ

namespace SpatialHash

/-- `getKey(x, y)`: `floor(x / cellSize), floor(y / cellSize)`. -/
def getKey (cellSize x y : ℚ) : ℤ × ℤ :=
  (⌊x / cellSize⌋, ⌊y / cellSize⌋)

/-- `this.cells.get(key)!.push(i)` (creating the cell when absent). -/
def cellPush (m : CellMap) (k : ℤ × ℤ) (i : ℕ) : CellMap :=
  fun k2 => if k2 = k then m k ++ [i] else m k2

/-- The `rebuild` loop: insert the index of each blob in order, counting up
from `i`. -/
def buildCells (cellSize : ℚ) : List WaveFrontBlob → ℕ → CellMap → CellMap
  | [], _, m => m
  | b :: rest, i, m =>
      buildCells cellSize rest (i + 1) (cellPush m (getKey cellSize b.x b.y) i)

/-- `rebuild(blobs)`: `this.cells.clear()` followed by inserting every blob
index. The previous table is discarded entirely by `clear()`. -/
def rebuild (cellSize : ℚ) (blobs : List WaveFrontBlob) (_prev : CellMap) : CellMap :=
  buildCells cellSize blobs 0 (fun _ => [])

/-- The nine cell keys of the 3×3 query block, in the source's loop order
(`dx` outer from −1 to 1, `dy` inner). -/
def neighborKeys (cellX cellY : ℤ) : List (ℤ × ℤ) :=
  [(cellX - 1, cellY - 1), (cellX - 1, cellY), (cellX - 1, cellY + 1),
   (cellX, cellY - 1), (cellX, cellY), (cellX, cellY + 1),
   (cellX + 1, cellY - 1), (cellX + 1, cellY), (cellX + 1, cellY + 1)]

/-- Concatenate the contents of the given cells (the `result.push(...cell)`
accumulation). -/
def collectCells (m : CellMap) : List (ℤ × ℤ) → List ℕ
  | [] => []
  | k :: ks => m k ++ collectCells m ks

/-- `getNeighborIndices(x, y)`: indices found in the 3×3 block of cells
centered on the query position. -/
def getNeighborIndices (cellSize : ℚ) (m : CellMap) (x y : ℚ) : List ℕ :=
  collectCells m (neighborKeys ⌊x / cellSize⌋ ⌊y / cellSize⌋)

/-- Indices (counted from `i`) of the blobs of `bs` whose cell key is `k`;
the reference description of what `rebuild` stores in cell `k`. -/
def cellIndices (cellSize : ℚ) : List WaveFrontBlob → ℕ → ℤ × ℤ → List ℕ
  | [], _, _ => []
  | b :: rest, i, k =>
      (if getKey cellSize b.x b.y = k then [i] else []) ++
        cellIndices cellSize rest (i + 1) k

end SpatialHash

/-- One frame's lifecycle transition for one particle (Blobulator.tsx lines
974–982): dying blobs fade toward 0, others fade toward 1, both clamped. -/
def lifecycleStep (deltaMs : ℚ) (b : WaveFrontBlob) : WaveFrontBlob :=
  if b.dying then
    { b with lifecycle := max 0 (b.lifecycle - LIFECYCLE_FADE_RATE * deltaMs) }
  else if b.lifecycle < 1 then
    { b with lifecycle := min 1 (b.lifecycle + LIFECYCLE_FADE_RATE * deltaMs) }
  else b

/-- The dead-blob test of line 988: `blob.dying && blob.lifecycle <=
LIFECYCLE_REMOVE_THRESHOLD`. -/
def isDead (b : WaveFrontBlob) : Bool :=
  b.dying && decide (b.lifecycle ≤ LIFECYCLE_REMOVE_THRESHOLD)

/-- The random draws consumed when one dead blob is recycled (lines
1003–1010): uniform draws for position, velocity, size and the color index.
`rdir` stands for the already-scaled draw `Math.random() * Math.PI * 2`. -/
structure RecycleDraw where
  rx : ℚ
  ry : ℚ
  rvx : ℚ
  rvy : ℚ
  rdir : ℚ
  rsize : ℚ
  rcolor : ℕ

/-- In-place reset of one dead blob (lines 1002–1014): fresh random position
inside the padded viewport, fresh velocity, age 0, lifecycle 0, `dying`
cleared. `maxX`/`maxY` are `viewport/2 − padding` with padding 100. -/
def recycleBlob (d : RecycleDraw) (maxX maxY baseBlobSize : ℚ)
    (b : WaveFrontBlob) : WaveFrontBlob :=
  { b with
    x := (d.rx - 1/2) * 2 * maxX
    y := (d.ry - 1/2) * 2 * maxY
    vx := (d.rvx - 1/2) * (1/2)
    vy := (d.rvy - 1/2) * (1/2)
    direction := d.rdir
    size := baseBlobSize * (4/5 + d.rsize * (2/5))
    age := 0
    colorIndex := d.rcolor
    lifecycle := 0
    dying := false
    isFrontier := true }

/-- The recycling pass (lines 984–1014): every blob that is dying with
exhausted lifecycle is reset in place; every other blob is untouched. The
random draws are indexed by array position. -/
def recycleLoop (draws : ℕ → RecycleDraw) (maxX maxY baseBlobSize : ℚ) :
    List WaveFrontBlob → ℕ → List WaveFrontBlob
  | [], _ => []
  | b :: rest, i =>
      (if isDead b then recycleBlob (draws i) maxX maxY baseBlobSize b else b) ::
        recycleLoop draws maxX maxY baseBlobSize rest (i + 1)

/-- Entry point of the recycling pass, starting at index 0. -/
def recycleDead (draws : ℕ → RecycleDraw) (maxX maxY baseBlobSize : ℚ)
    (blobs : List WaveFrontBlob) : List WaveFrontBlob :=
  recycleLoop draws maxX maxY baseBlobSize blobs 0

/-- Random draws consumed by `createRandomBlob` (lines 485–504). -/
structure SpawnDraw where
  idStr : String
  rx : ℚ
  ry : ℚ
  rvx : ℚ
  rvy : ℚ
  rdir : ℚ
  rsize : ℚ
  rcolor : ℕ

/-- `createRandomBlob()` (lines 485–504): a fresh blob at a random padded
viewport position with `age 0`, `lifecycle 0`, `dying false`. -/
def createRandomBlob (viewportW viewportH baseBlobSize : ℚ)
    (d : SpawnDraw) : WaveFrontBlob :=
  { id := d.idStr
    x := (d.rx - 1/2) * 2 * (viewportW / 2 - 100)
    y := (d.ry - 1/2) * 2 * (viewportH / 2 - 100)
    vx := (d.rvx - 1/2) * (1/2)
    vy := (d.rvy - 1/2) * (1/2)
    direction := d.rdir
    generation := 0
    size := baseBlobSize * (4/5 + d.rsize * (2/5))
    age := 0
    isFrontier := true
    colorIndex := d.rcolor
    lifecycle := 0
    dying := false }

/-- `blobs.filter(b => !b.dying).length` — the population of non-dying blobs. -/
def aliveCount (bs : List WaveFrontBlob) : ℕ :=
  (bs.filter fun b => !b.dying).length

/-- The spawn step (lines 1022–1032): push `spawnCount` fresh blobs if in the
seeding phase or below the soft cap. -/
def spawnStep (isSeeding : Bool) (spawnCount : ℕ)
    (viewportW viewportH baseBlobSize : ℚ) (draws : ℕ → SpawnDraw)
    (bs : List WaveFrontBlob) : List WaveFrontBlob :=
  let canSpawnNew := isSeeding || decide (aliveCount bs < SOFT_CAP_START)
  if 0 < spawnCount ∧ canSpawnNew = true then
    bs ++ (List.range spawnCount).map
      (fun j => createRandomBlob viewportW viewportH baseBlobSize (draws j))
  else bs

/-- The oldest-non-dying search loop (lines 1040–1047): running index, best
age so far (initially −1) and best index so far (initially none, for −1). -/
def findOldest : List WaveFrontBlob → ℕ → ℤ → Option ℕ → Option ℕ
  | [], _, _, best => best
  | b :: rest, i, bestAge, best =>
      if b.dying = false ∧ bestAge < (b.age : ℤ) then
        findOldest rest (i + 1) (b.age : ℤ) (some i)
      else findOldest rest (i + 1) bestAge best

/-- Set the `dying` flag of the blob at position `i` (line 1049). -/
def setDyingAt : List WaveFrontBlob → ℕ → List WaveFrontBlob
  | [], _ => []
  | b :: rest, 0 => { b with dying := true } :: rest
  | b :: rest, n + 1 => b :: setDyingAt rest n

/-- The death-marking step (lines 1034–1052): when a kill is due and the
non-dying population is above `MIN_POPULATION`, mark the oldest non-dying
blob as dying. -/
def markOldestDying (shouldKillOldest : Bool) (bs : List WaveFrontBlob) :
    List WaveFrontBlob :=
  if shouldKillOldest = true ∧ MIN_POPULATION < aliveCount bs then
    match findOldest bs 0 (-1) none with
    | some i => setDyingAt bs i
    | none => bs
  else bs

/-- The edge-recycling step (lines 1054–1063): blobs outside the viewport
half-extents plus a 200px margin are marked dying. -/
def edgeMark (viewportW viewportH : ℚ) (bs : List WaveFrontBlob) :
    List WaveFrontBlob :=
  bs.map fun b =>
    if b.dying = false ∧ (viewportW / 2 + 200 ≤ |b.x| ∨ viewportH / 2 + 200 ≤ |b.y|) then
      { b with dying := true }
    else b

/-- The emergency re-seed (lines 1065–1072): push 20 fresh blobs when fewer
than 10 remain. -/
def reseedStep (viewportW viewportH baseBlobSize : ℚ) (draws : ℕ → SpawnDraw)
    (bs : List WaveFrontBlob) : List WaveFrontBlob :=
  if bs.length < 10 then
    bs ++ (List.range 20).map
      (fun j => createRandomBlob viewportW viewportH baseBlobSize (draws j))
  else bs

/-- The age comparator of line 1089, `(a, b) => a.age - b.age`, as the
boolean "a sorts no later than b". -/
def ageLe (a b : WaveFrontBlob) : Bool :=
  decide (a.age ≤ b.age)

/-- The hard-cap emergency cull (lines 1084–1091): when the population
exceeds `HARD_CAP_LIMIT`, stable-sort by age ascending and keep the final
slice of `HARD_CAP_TARGET` blobs (`.slice(-HARD_CAP_TARGET)`). -/
def hardCapCull (bs : List WaveFrontBlob) : List WaveFrontBlob :=
  if HARD_CAP_LIMIT < bs.length then
    (bs.mergeSort ageLe).drop (bs.length - HARD_CAP_TARGET)
  else bs

/-- One frame's inputs to the blob-array update: elapsed time, the spawn and
death decisions precomputed before `setBlobs`, the viewport, and the random
draws this frame consumes. `motion` stands for the in-place physics loops
(drift/expansion, gravity, boundary containment, flocking), which mutate
per-blob motion fields and ages but never the array structure. -/
structure FrameInput where
  deltaMs : ℚ
  spawnCount : ℕ
  shouldKillOldest : Bool
  isSeeding : Bool
  viewportW : ℚ
  viewportH : ℚ
  baseBlobSize : ℚ
  motion : List WaveFrontBlob → List WaveFrontBlob
  recycleDraws : ℕ → RecycleDraw
  spawnDraws : ℕ → SpawnDraw
  reseedDraws : ℕ → SpawnDraw

/-- One frame of the `setBlobs` update (lines 693–1100), in source order:
physics, lifecycle transitions, recycling of dead blobs, spawning, death
marking, edge recycling, emergency re-seed, hard-cap cull. -/
def frameStep (inp : FrameInput) (blobs : List WaveFrontBlob) :
    List WaveFrontBlob :=
  let bs1 := inp.motion blobs
  let bs2 := bs1.map (lifecycleStep inp.deltaMs)
  let bs3 := recycleDead inp.recycleDraws (inp.viewportW / 2 - 100)
    (inp.viewportH / 2 - 100) inp.baseBlobSize bs2
  let bs4 := spawnStep inp.isSeeding inp.spawnCount inp.viewportW inp.viewportH
    inp.baseBlobSize inp.spawnDraws bs3
  let bs5 := markOldestDying inp.shouldKillOldest bs4
  let bs6 := edgeMark inp.viewportW inp.viewportH bs5
  let bs7 := reseedStep inp.viewportW inp.viewportH inp.baseBlobSize
    inp.reseedDraws bs6
  hardCapCull bs7

/-! ### The adaptive audio analyzer (`useAdaptiveAudio`) -/

/-- `DEFAULT_BPM = 120`. -/
def DEFAULT_BPM : ℚ := 120

/-- `BPM_SMOOTHING = 0.97`. -/
def BPM_SMOOTHING : ℚ := 97 / 100

/-- `BPM_JUMP_THRESHOLD = 15`. -/
def BPM_JUMP_THRESHOLD : ℚ := 15

/-- `BPM_UPDATE_INTERVAL_MS = 1000`. -/
def BPM_UPDATE_INTERVAL_MS : ℚ := 1000

/-- The tempo-handling state: the pending smoothed value
(`pendingBpmRef`), the last publish time (`lastBpmUpdateTimeRef`), and the
published React state `bpm`/`bpmConfidence`. -/
structure BpmState where
  pendingBpm : ℚ
  lastBpmUpdateTime : ℚ
  bpm : ℤ
  bpmConfidence : ℚ
deriving DecidableEq, Repr

/-- Initial tempo state: pending and published tempo at `DEFAULT_BPM`,
last update time 0, confidence 0. -/
def initialBpmState : BpmState :=
  { pendingBpm := DEFAULT_BPM, lastBpmUpdateTime := 0, bpm := 120, bpmConfidence := 0 }

/-- One ordinary tempo event `{tempo, count}` arriving at time `now`. -/
structure BpmEvent where
  tempo : ℚ
  count : ℕ
  now : ℚ

/-- The jump-guard test of line 256: accept the candidate when it is within
`BPM_JUMP_THRESHOLD` of the pending value, or when the pending value still
equals `DEFAULT_BPM`. -/
def acceptsCandidate (s : BpmState) (tempo : ℚ) : Bool :=
  decide (|tempo - s.pendingBpm| ≤ BPM_JUMP_THRESHOLD) ||
    decide (s.pendingBpm = DEFAULT_BPM)

/-- The `bpmAnalyzer.on('bpm')` handler (lines 248–279): blend an accepted
candidate into the pending value with 97%/3% weights, then publish (rounded
pending, confidence `min 1 (count/100)`) only if at least
`BPM_UPDATE_INTERVAL_MS` has passed since the last publish. -/
def onBpmEvent (s : BpmState) (e : BpmEvent) : BpmState :=
  let pending :=
    if acceptsCandidate s e.tempo then
      s.pendingBpm * BPM_SMOOTHING + e.tempo * (1 - BPM_SMOOTHING)
    else s.pendingBpm
  if BPM_UPDATE_INTERVAL_MS ≤ e.now - s.lastBpmUpdateTime then
    { pendingBpm := pending
      lastBpmUpdateTime := e.now
      bpm := round pending
      bpmConfidence := min 1 ((e.count : ℚ) / 100) }
  else { s with pendingBpm := pending }

/-- The `bpmAnalyzer.on('bpmStable')` handler (lines 281–300): a stable
candidate within twice the jump threshold is blended with the stronger
70%/30% weights; the last-update time is reset to 0 and the rounded pending
value is published immediately with confidence 1. -/
def onBpmStableEvent (s : BpmState) (tempo : ℚ) : BpmState :=
  let pending :=
    if |tempo - s.pendingBpm| ≤ BPM_JUMP_THRESHOLD * 2 then
      s.pendingBpm * (7/10) + tempo * (3/10)
    else s.pendingBpm
  { pendingBpm := pending
    lastBpmUpdateTime := 0
    bpm := round pending
    bpmConfidence := 1 }

/-- Rolling statistics of `calculateStats`. The source stores
`stdDev = Math.sqrt(variance)`; the rational variance is stored here and the
square root is taken by `stdDevOf`. -/
structure RollingStats where
  min : ℚ
  max : ℚ
  mean : ℚ
  variance : ℚ
deriving DecidableEq, Repr

/-- `calculateStats(history)` (App.tsx lines 156–170). The empty-history
defaults `{min: 0, max: 0.1, mean: 0.05, stdDev: 0.02}` appear with
variance `0.02² = 1/2500`. -/
def calculateStats (history : List ℚ) : RollingStats :=
  match history with
  | [] => { min := 0, max := 1/10, mean := 1/20, variance := 1/2500 }
  | h :: t =>
      let mn := t.foldl min h
      let mx := t.foldl max h
      let mean := (h :: t).sum / ((h :: t).length : ℚ)
      let variance :=
        ((h :: t).map fun v => (v - mean) ^ 2).sum / ((h :: t).length : ℚ)
      { min := mn, max := mx, mean := mean, variance := variance }

/-- `stdDev = Math.sqrt(variance)`. -/
noncomputable def stdDevOf (s : RollingStats) : ℝ :=
  Real.sqrt (s.variance : ℝ)

/-- `normalizeValue(value, min, max)` (lines 173–177): neutral 0.5 when the
window range is below 0.001, otherwise the clamped rescaled value. -/
def normalizeValue (value mn mx : ℚ) : ℚ :=
  if mx - mn < 1/1000 then 1/2
  else max 0 (min 1 ((value - mn) / (mx - mn)))

/-! ### Sample values used by witnesses -/

/-- A concrete blob used by witnesses: half-faded-in, not dying. -/
def sampleBlob : WaveFrontBlob :=
  { id := "blob-a", x := 0, y := 0, vx := 0, vy := 0, direction := 0,
    generation := 0, size := 50, age := 0, isFrontier := true,
    colorIndex := 0, lifecycle := 1/2, dying := false }

/-! ### C2: lifecycle bounds and monotonicity -/

/-- C2: after a frame's lifecycle-advance step the lifecycle stays in
`[0, 1]`; over a frame with positive elapsed time it strictly decreases
while `dying` is set (until the floor 0) and strictly increases while
`dying` is clear (until the cap 1), never moving in both directions; and a
blob is treated as dead (eligible for recycling) exactly when `dying` is
set and its lifecycle is at or below `LIFECYCLE_REMOVE_THRESHOLD`. -/
theorem lifecycleStep_bounds_monotone (deltaMs : ℚ) (b : WaveFrontBlob)
    (hd : 0 < deltaMs) (h0 : 0 ≤ b.lifecycle) (h1 : b.lifecycle ≤ 1) :
    (0 ≤ (lifecycleStep deltaMs b).lifecycle ∧
      (lifecycleStep deltaMs b).lifecycle ≤ 1) ∧
    (b.dying = true →
      (lifecycleStep deltaMs b).lifecycle ≤ b.lifecycle ∧
      (0 < b.lifecycle →
        (lifecycleStep deltaMs b).lifecycle < b.lifecycle)) ∧
    (b.dying = false →
      b.lifecycle ≤ (lifecycleStep deltaMs b).lifecycle ∧
      (b.lifecycle < 1 →
        b.lifecycle < (lifecycleStep deltaMs b).lifecycle)) ∧
    (isDead b = true ↔
      b.dying = true ∧ b.lifecycle ≤ LIFECYCLE_REMOVE_THRESHOLD) := by
  have hr : 0 < LIFECYCLE_FADE_RATE * deltaMs := by
    have hf : (0:ℚ) < LIFECYCLE_FADE_RATE := by norm_num [LIFECYCLE_FADE_RATE]
    positivity
  cases hb : b.dying with
  | true =>
      simp only [lifecycleStep, hb, if_true, isDead, Bool.true_and]
      refine ⟨⟨le_max_left _ _, max_le (by norm_num) (by linarith)⟩,
        fun _ => ⟨max_le h0 (by linarith), fun hpos => max_lt hpos (by linarith)⟩,
        fun hc => by simp at hc, by simp⟩
  | false =>
      by_cases hl : b.lifecycle < 1
      · simp only [lifecycleStep, hb, if_false, hl, if_true, Bool.false_eq_true,
          isDead, Bool.false_and]
        refine ⟨⟨le_min (by norm_num) (by linarith), min_le_left _ _⟩,
          fun hc => by simp at hc,
          fun _ => ⟨le_min h1 (by linarith), fun _ => lt_min hl (by linarith)⟩,
          by simp⟩
      · simp only [lifecycleStep, hb, if_false, hl, Bool.false_eq_true,
          isDead, Bool.false_and]
        refine ⟨⟨h0, h1⟩, fun hc => by simp at hc,
          fun _ => ⟨le_refl _, fun hc => hc.elim⟩, by simp⟩

/-- Witness for C2 at `deltaMs = 100` and `sampleBlob`. -/
theorem lifecycleStep_bounds_monotone_witness :
    ((0:ℚ) < 100 ∧ 0 ≤ sampleBlob.lifecycle ∧ sampleBlob.lifecycle ≤ 1) ∧
    ((0 ≤ (lifecycleStep 100 sampleBlob).lifecycle ∧
      (lifecycleStep 100 sampleBlob).lifecycle ≤ 1) ∧
    (sampleBlob.dying = true →
      (lifecycleStep 100 sampleBlob).lifecycle ≤ sampleBlob.lifecycle ∧
      (0 < sampleBlob.lifecycle →
        (lifecycleStep 100 sampleBlob).lifecycle < sampleBlob.lifecycle)) ∧
    (sampleBlob.dying = false →
      sampleBlob.lifecycle ≤ (lifecycleStep 100 sampleBlob).lifecycle ∧
      (sampleBlob.lifecycle < 1 →
        sampleBlob.lifecycle < (lifecycleStep 100 sampleBlob).lifecycle)) ∧
    (isDead sampleBlob = true ↔
      sampleBlob.dying = true ∧
        sampleBlob.lifecycle ≤ LIFECYCLE_REMOVE_THRESHOLD)) :=
  ⟨⟨by norm_num, by norm_num [sampleBlob], by norm_num [sampleBlob]⟩,
    lifecycleStep_bounds_monotone 100 sampleBlob (by norm_num)
      (by norm_num [sampleBlob]) (by norm_num [sampleBlob])⟩

/-! ### C8: rebuild is idempotent -/

/-- C8: `rebuild` starts from a cleared table, so rebuilding twice from the
same blob array leaves the index in the same state: every neighbor query
answers identically after the first and after the second rebuild. -/
theorem rebuild_twice_same_queries (cellSize x y : ℚ)
    (blobs : List WaveFrontBlob) (prev : CellMap) :
    SpatialHash.getNeighborIndices cellSize
        (SpatialHash.rebuild cellSize blobs
          (SpatialHash.rebuild cellSize blobs prev)) x y =
      SpatialHash.getNeighborIndices cellSize
        (SpatialHash.rebuild cellSize blobs prev) x y := rfl

/-! ### C4: the 70 → 140 tempo scenario -/

/-- The scenario's first event, `{tempo: 70, count: 50}` at time 1000. -/
def bpmEventA : BpmEvent := { tempo := 70, count := 50, now := 1000 }

/-- The scenario's second event, `{tempo: 140, count: 50}`, arriving
immediately after the first. -/
def bpmEventB : BpmEvent := { tempo := 140, count := 50, now := 1000 }

/-- State after the first scenario event. -/
def bpmStateAfterA : BpmState := onBpmEvent initialBpmState bpmEventA

/-- State after both scenario events. -/
def bpmStateAfterB : BpmState := onBpmEvent bpmStateAfterA bpmEventB

unseal Rat.add Rat.mul Rat.inv Rat.sub Nat.gcd in
/-- C4 (counterexample): the first candidate (70) is accepted only because
the pending value still equals `DEFAULT_BPM`; after blending, the pending
value is 118.5, so the second candidate (140) differs by 21.5 > 15 and is
rejected by the jump guard — it is not blended, leaving the pending value
unchanged, contradicting the claim that both candidates are accepted. -/
theorem bpm_second_candidate_rejected :
    acceptsCandidate initialBpmState 70 = true ∧
    acceptsCandidate bpmStateAfterA 140 = false ∧
    bpmStateAfterB.pendingBpm = bpmStateAfterA.pendingBpm := by decide

unseal Rat.add Rat.mul Rat.inv Rat.sub Nat.gcd in
/-- C4 (amended): in the 70-then-140 scenario the first candidate is
accepted via the default-value exception and blended (pending becomes
118.5, published as 119); the second is rejected by the jump guard, so the
pending and published tempos remain 118.5 and 119 — smoothed strictly
between the candidate 70 and the prior 120 — and never snap to 140. -/
theorem bpm_scenario_smoothed_never_snaps :
    bpmStateAfterA.pendingBpm = 237/2 ∧
    bpmStateAfterA.bpm = 119 ∧
    bpmStateAfterB.pendingBpm = 237/2 ∧
    bpmStateAfterB.bpm = 119 ∧
    70 < bpmStateAfterB.pendingBpm ∧ bpmStateAfterB.pendingBpm < 120 ∧
    bpmStateAfterB.bpm ≠ 140 := by decide

/-! ### C9: publish rate limiting -/

/-- C9: an ordinary tempo event arriving within `BPM_UPDATE_INTERVAL_MS` of
the last publish leaves the published tempo, the publish timestamp and the
confidence untouched and (when the candidate passes the jump guard) only
updates the pending smoothed value with the 97%/3% blend; a stable event
always publishes the rounded pending value immediately and blends an
in-range candidate with the stronger 70%/30% weights. -/
theorem bpm_publish_rate_limited (s : BpmState) (e : BpmEvent) (t : ℚ)
    (h : e.now - s.lastBpmUpdateTime < BPM_UPDATE_INTERVAL_MS) :
    ((onBpmEvent s e).bpm = s.bpm ∧
      (onBpmEvent s e).lastBpmUpdateTime = s.lastBpmUpdateTime ∧
      (onBpmEvent s e).bpmConfidence = s.bpmConfidence) ∧
    (acceptsCandidate s e.tempo = true →
      (onBpmEvent s e).pendingBpm =
        s.pendingBpm * BPM_SMOOTHING + e.tempo * (1 - BPM_SMOOTHING)) ∧
    ((onBpmStableEvent s t).bpm = round ((onBpmStableEvent s t).pendingBpm)) ∧
    (|t - s.pendingBpm| ≤ BPM_JUMP_THRESHOLD * 2 →
      (onBpmStableEvent s t).pendingBpm = s.pendingBpm * (7/10) + t * (3/10)) := by
  have hpub : ¬ BPM_UPDATE_INTERVAL_MS ≤ e.now - s.lastBpmUpdateTime :=
    not_le.mpr h
  refine ⟨?_, ?_, ?_, ?_⟩
  · simp [onBpmEvent, hpub]
  · intro ha
    simp [onBpmEvent, ha, hpub]
  · simp [onBpmStableEvent]
  · intro h2
    simp [onBpmStableEvent, h2]

/-- An ordinary event at time 500, used by the C9 witness. -/
def bpmEventC : BpmEvent := { tempo := 121, count := 50, now := 500 }

/-- Witness for C9 at the initial state, `bpmEventC` and candidate 121. -/
theorem bpm_publish_rate_limited_witness :
    (bpmEventC.now - initialBpmState.lastBpmUpdateTime <
      BPM_UPDATE_INTERVAL_MS) ∧
    (((onBpmEvent initialBpmState bpmEventC).bpm = initialBpmState.bpm ∧
      (onBpmEvent initialBpmState bpmEventC).lastBpmUpdateTime =
        initialBpmState.lastBpmUpdateTime ∧
      (onBpmEvent initialBpmState bpmEventC).bpmConfidence =
        initialBpmState.bpmConfidence) ∧
    (acceptsCandidate initialBpmState bpmEventC.tempo = true →
      (onBpmEvent initialBpmState bpmEventC).pendingBpm =
        initialBpmState.pendingBpm * BPM_SMOOTHING +
          bpmEventC.tempo * (1 - BPM_SMOOTHING)) ∧
    ((onBpmStableEvent initialBpmState 121).bpm =
      round ((onBpmStableEvent initialBpmState 121).pendingBpm)) ∧
    (|121 - initialBpmState.pendingBpm| ≤ BPM_JUMP_THRESHOLD * 2 →
      (onBpmStableEvent initialBpmState 121).pendingBpm =
        initialBpmState.pendingBpm * (7/10) + 121 * (3/10))) :=
  ⟨by norm_num [bpmEventC, initialBpmState, BPM_UPDATE_INTERVAL_MS],
    bpm_publish_rate_limited initialBpmState bpmEventC 121
      (by norm_num [bpmEventC, initialBpmState, BPM_UPDATE_INTERVAL_MS])⟩

/-! ### C7: constant amplitude history -/

/-- 600 samples of the constant amplitude 0.5. -/
def constHistory : List ℚ := List.replicate 600 (1/2)

/-- Folding `min` over a constant list returns the constant. -/
theorem foldl_min_replicate (c : ℚ) : ∀ n, (List.replicate n c).foldl min c = c
  | 0 => rfl
  | n + 1 => by
      rw [List.replicate_succ, List.foldl_cons, min_self]
      exact foldl_min_replicate c n

/-- Folding `max` over a constant list returns the constant. -/
theorem foldl_max_replicate (c : ℚ) : ∀ n, (List.replicate n c).foldl max c = c
  | 0 => rfl
  | n + 1 => by
      rw [List.replicate_succ, List.foldl_cons, max_self]
      exact foldl_max_replicate c n

/-- The rolling statistics of the constant history collapse to the sample
value with zero variance. -/
theorem constHistory_stats :
    calculateStats constHistory = { min := 1/2, max := 1/2, mean := 1/2, variance := 0 } := by
  have h : constHistory = (1/2 : ℚ) :: List.replicate 599 (1/2) := by
    rw [constHistory, show (600:ℕ) = 599 + 1 from rfl, List.replicate_succ]
  rw [h]
  simp only [calculateStats]
  have hmean : ((1/2 : ℚ) :: List.replicate 599 (1/2)).sum /
      (((1/2 : ℚ) :: List.replicate 599 (1/2)).length : ℚ) = 1/2 := by
    rw [List.sum_cons, List.sum_replicate, List.length_cons, List.length_replicate]
    push_cast
    norm_num [nsmul_eq_mul]
  rw [RollingStats.mk.injEq]
  refine ⟨foldl_min_replicate _ _, foldl_max_replicate _ _, hmean, ?_⟩
  rw [hmean, List.map_cons, List.map_replicate]
  norm_num [List.sum_cons, List.sum_replicate]

/-- C7: with an amplitude history of 600 constant samples 0.5 the rolling
statistics are `min = max = mean = 0.5` with `stdDev = 0`, and normalizing
any value against that window returns the neutral fallback 0.5 (the range
is below the 0.001 minimum-range guard), not a division by zero. -/
theorem const_history_neutral_normalization :
    (calculateStats constHistory).min = 1/2 ∧
    (calculateStats constHistory).max = 1/2 ∧
    (calculateStats constHistory).mean = 1/2 ∧
    (calculateStats constHistory).variance = 0 ∧
    stdDevOf (calculateStats constHistory) = 0 ∧
    ∀ v : ℚ, normalizeValue v (calculateStats constHistory).min
      (calculateStats constHistory).max = 1/2 := by
  rw [constHistory_stats]
  refine ⟨rfl, rfl, rfl, rfl, ?_, ?_⟩
  · simp [stdDevOf]
  · intro v
    norm_num [normalizeValue]

/-! ### Spatial hash: characterization of `rebuild` and query completeness -/

namespace SpatialHash

/-- After the insertion loop, cell `k` holds its previous contents followed
by the indices of the processed blobs whose key is `k`. -/
theorem buildCells_apply (cellSize : ℚ) :
    ∀ (bs : List WaveFrontBlob) (i : ℕ) (m : CellMap) (k : ℤ × ℤ),
      buildCells cellSize bs i m k = m k ++ cellIndices cellSize bs i k
  | [], _, m, k => by simp [buildCells, cellIndices]
  | b :: rest, i, m, k => by
      rw [buildCells, cellIndices, buildCells_apply cellSize rest (i + 1) _ k]
      by_cases h : getKey cellSize b.x b.y = k
      · rw [if_pos h]
        simp only [cellPush]
        rw [if_pos h.symm, h, List.singleton_append, List.append_assoc,
          List.singleton_append]
      · rw [if_neg h]
        simp only [cellPush]
        rw [if_neg (fun hh => h hh.symm), List.nil_append]

/-- `rebuild` fills cell `k` with exactly the indices of the blobs keyed
to `k`, in index order. -/
theorem rebuild_apply (cellSize : ℚ) (blobs : List WaveFrontBlob)
    (prev : CellMap) (k : ℤ × ℤ) :
    rebuild cellSize blobs prev k = cellIndices cellSize blobs 0 k := by
  rw [rebuild, buildCells_apply]
  rfl

/-- Every index stored while scanning from position `i` is at least `i`. -/
theorem le_of_mem_cellIndices (cellSize : ℚ) :
    ∀ (bs : List WaveFrontBlob) (i j : ℕ) (k : ℤ × ℤ),
      j ∈ cellIndices cellSize bs i k → i ≤ j
  | [], i, j, k => by simp [cellIndices]
  | b :: rest, i, j, k => by
      rw [cellIndices]
      intro hj
      rcases List.mem_append.mp hj with h1 | h2
      · by_cases h : getKey cellSize b.x b.y = k
        · rw [if_pos h] at h1
          simp at h1
          omega
        · rw [if_neg h] at h1
          simp at h1
      · have := le_of_mem_cellIndices cellSize rest (i + 1) j k h2
        omega

/-- The indices stored in one cell are pairwise distinct. -/
theorem cellIndices_nodup (cellSize : ℚ) :
    ∀ (bs : List WaveFrontBlob) (i : ℕ) (k : ℤ × ℤ),
      (cellIndices cellSize bs i k).Nodup
  | [], _, _ => List.nodup_nil
  | b :: rest, i, k => by
      rw [cellIndices]
      by_cases h : getKey cellSize b.x b.y = k
      · rw [if_pos h, List.singleton_append, List.nodup_cons]
        refine ⟨fun hmem => ?_, cellIndices_nodup cellSize rest (i + 1) k⟩
        have := le_of_mem_cellIndices cellSize rest (i + 1) i k hmem
        omega
      · rw [if_neg h, List.nil_append]
        exact cellIndices_nodup cellSize rest (i + 1) k

/-- An index appears in the cell of at most one key: the key of its blob. -/
theorem cellIndices_key_unique (cellSize : ℚ) :
    ∀ (bs : List WaveFrontBlob) (i j : ℕ) (k k2 : ℤ × ℤ),
      j ∈ cellIndices cellSize bs i k → j ∈ cellIndices cellSize bs i k2 →
        k = k2
  | [], i, j, k, k2 => by simp [cellIndices]
  | b :: rest, i, j, k, k2 => by
      intro h1 h2
      rw [cellIndices] at h1 h2
      have split : ∀ kk : ℤ × ℤ,
          j ∈ (if getKey cellSize b.x b.y = kk then [i] else []) →
            getKey cellSize b.x b.y = kk ∧ j = i := by
        intro kk hm
        by_cases hc : getKey cellSize b.x b.y = kk
        · rw [if_pos hc] at hm
          simp at hm
          exact ⟨hc, hm⟩
        · rw [if_neg hc] at hm
          simp at hm
      rcases List.mem_append.mp h1 with m1 | m1 <;>
        rcases List.mem_append.mp h2 with m2 | m2
      · rcases split k m1 with ⟨hk1, _⟩
        rcases split k2 m2 with ⟨hk2, _⟩
        rw [← hk1, hk2]
      · rcases split k m1 with ⟨_, hji⟩
        have := le_of_mem_cellIndices cellSize rest (i + 1) j k2 m2
        omega
      · rcases split k2 m2 with ⟨_, hji⟩
        have := le_of_mem_cellIndices cellSize rest (i + 1) j k m1
        omega
      · exact cellIndices_key_unique cellSize rest (i + 1) j k k2 m1 m2

/-- A blob's index is stored in the cell of its own key. -/
theorem mem_cellIndices_of_getKey (cellSize : ℚ) :
    ∀ (bs : List WaveFrontBlob) (i t : ℕ) (ht : t < bs.length),
      i + t ∈ cellIndices cellSize bs i (getKey cellSize bs[t].x bs[t].y)
  | [], _, t, ht => absurd ht (by simp)
  | b :: rest, i, 0, _ => by
      rw [cellIndices]
      simp
  | b :: rest, i, t + 1, ht => by
      rw [cellIndices]
      have hrest : t < rest.length := by
        simpa using Nat.lt_of_succ_lt_succ (by simpa using ht)
      apply List.mem_append_right
      have h2 := mem_cellIndices_of_getKey cellSize rest (i + 1) t hrest
      rw [show i + (t + 1) = i + 1 + t by omega]
      simp only [List.getElem_cons_succ]
      exact h2

/-- Membership in the concatenation of a block of cells. -/
theorem mem_collectCells (m : CellMap) :
    ∀ (ks : List (ℤ × ℤ)) (j : ℕ),
      j ∈ collectCells m ks ↔ ∃ k, k ∈ ks ∧ j ∈ m k
  | [], j => by simp [collectCells]
  | k :: ks, j => by
      simp [collectCells, List.mem_append, mem_collectCells m ks j]

/-- Concatenating pairwise-distinct cells whose contents are duplicate-free
and key-disjoint yields a duplicate-free list. -/
theorem collectCells_nodup (m : CellMap) (hcell : ∀ k, (m k).Nodup)
    (hdisj : ∀ (j : ℕ) (k k2 : ℤ × ℤ), j ∈ m k → j ∈ m k2 → k = k2) :
    ∀ ks : List (ℤ × ℤ), ks.Nodup → (collectCells m ks).Nodup
  | [], _ => List.nodup_nil
  | k :: ks, h => by
      rw [collectCells]
      rcases List.nodup_cons.mp h with ⟨hk, hks⟩
      refine List.Nodup.append (hcell k)
        (collectCells_nodup m hcell hdisj ks hks) ?_
      intro j hj1 hj2
      rcases (mem_collectCells m ks j).mp hj2 with ⟨k2, hk2, hjk2⟩
      exact hk (by rw [hdisj j k k2 hj1 hjk2]; exact hk2)

/-- The nine keys of the 3×3 query block are pairwise distinct. -/
theorem neighborKeys_nodup (cx cy : ℤ) : (neighborKeys cx cy).Nodup := by
  simp [neighborKeys, List.nodup_cons, Prod.ext_iff]
  omega

/-- Floors of two points at most `cellSize` apart differ by at most one
cell. -/
theorem floor_within_one (cellSize u v : ℚ) (hcs : 0 < cellSize)
    (h : |u - v| ≤ cellSize) :
    ⌊v / cellSize⌋ - 1 ≤ ⌊u / cellSize⌋ ∧
      ⌊u / cellSize⌋ ≤ ⌊v / cellSize⌋ + 1 := by
  rcases abs_le.mp h with ⟨hl, hr⟩
  constructor
  · have h3 : v ≤ u + cellSize := by linarith
    have h4 := (div_le_div_iff_of_pos_right hcs).mpr h3
    rw [add_div, div_self hcs.ne'] at h4
    have h5 := Int.floor_le_floor h4
    rw [Int.floor_add_one] at h5
    omega
  · have h3 : u ≤ v + cellSize := by linarith
    have h4 := (div_le_div_iff_of_pos_right hcs).mpr h3
    rw [add_div, div_self hcs.ne'] at h4
    have h5 := Int.floor_le_floor h4
    rw [Int.floor_add_one] at h5
    omega

/-- A point within `cellSize` of the query point (coordinatewise) has its
cell key inside the 3×3 query block. -/
theorem getKey_mem_neighborKeys (cellSize x y px py : ℚ) (hcs : 0 < cellSize)
    (hx : |px - x| ≤ cellSize) (hy : |py - y| ≤ cellSize) :
    getKey cellSize px py ∈ neighborKeys ⌊x / cellSize⌋ ⌊y / cellSize⌋ := by
  rcases floor_within_one cellSize px x hcs hx with ⟨hx1, hx2⟩
  rcases floor_within_one cellSize py y hcs hy with ⟨hy1, hy2⟩
  simp only [getKey, neighborKeys, List.mem_cons, List.not_mem_nil, or_false,
    Prod.mk.injEq]
  omega

end SpatialHash

/-- Coordinatewise bounds from a squared-distance bound. -/
theorem abs_le_of_sq_add_sq_le (a b R : ℚ) (hR : 0 ≤ R)
    (h : a ^ 2 + b ^ 2 ≤ R ^ 2) : |a| ≤ R ∧ |b| ≤ R := by
  constructor <;> rw [abs_le] <;> constructor <;>
    nlinarith [sq_nonneg (a + R), sq_nonneg (a - R), sq_nonneg (b + R),
      sq_nonneg (b - R), sq_nonneg a, sq_nonneg b]

/-! ### C1: query completeness -/

/-- C1: if the spatial hash is rebuilt from a blob array with cell size at
least the influence radius `R`, then every blob whose distance to the query
point `(x, y)` is at most `R` (stated on squared distances) has its index
in the list returned by `getNeighborIndices`. -/
theorem spatialHash_query_complete (cellSize R x y : ℚ)
    (blobs : List WaveFrontBlob) (prev : CellMap) (i : ℕ)
    (hi : i < blobs.length) (hcs : 0 < cellSize) (hR0 : 0 ≤ R)
    (hRc : R ≤ cellSize)
    (hdist : (blobs[i].x - x) ^ 2 + (blobs[i].y - y) ^ 2 ≤ R ^ 2) :
    i ∈ SpatialHash.getNeighborIndices cellSize
      (SpatialHash.rebuild cellSize blobs prev) x y := by
  have habs := abs_le_of_sq_add_sq_le _ _ R hR0 hdist
  have hx : |blobs[i].x - x| ≤ cellSize := le_trans habs.1 hRc
  have hy : |blobs[i].y - y| ≤ cellSize := le_trans habs.2 hRc
  rw [SpatialHash.getNeighborIndices, SpatialHash.mem_collectCells]
  refine ⟨SpatialHash.getKey cellSize blobs[i].x blobs[i].y, ?_, ?_⟩
  · exact SpatialHash.getKey_mem_neighborKeys cellSize x y _ _ hcs hx hy
  · rw [SpatialHash.rebuild_apply]
    have h2 := SpatialHash.mem_cellIndices_of_getKey cellSize blobs 0 i hi
    simpa using h2

/-- A second blob 250px away from the origin, used by the C1 witness. -/
def farBlob : WaveFrontBlob :=
  { id := "blob-b", x := 250, y := 0, vx := 0, vy := 0, direction := 0,
    generation := 0, size := 50, age := 0, isFrontier := true,
    colorIndex := 0, lifecycle := 0, dying := false }

/-- Witness for C1: with cell size 100 and radius 80, the blob at the
origin is returned for a query at `(10, 10)`. -/
theorem spatialHash_query_complete_witness :
    (0 < (1 : ℕ) + 1 ∧ (0:ℚ) < 100 ∧ (0:ℚ) ≤ 80 ∧ (80:ℚ) ≤ 100 ∧
      (([sampleBlob, farBlob])[0].x - 10) ^ 2 +
        (([sampleBlob, farBlob])[0].y - 10) ^ 2 ≤ (80:ℚ) ^ 2) ∧
    0 ∈ SpatialHash.getNeighborIndices 100
      (SpatialHash.rebuild 100 [sampleBlob, farBlob] (fun _ => [])) 10 10 :=
  ⟨⟨by norm_num, by norm_num, by norm_num, by norm_num,
      by norm_num [sampleBlob, farBlob]⟩,
    spatialHash_query_complete 100 80 10 10 [sampleBlob, farBlob]
      (fun _ => []) 0 (by norm_num) (by norm_num) (by norm_num) (by norm_num)
      (by norm_num [sampleBlob, farBlob])⟩

/-! ### C10: no duplicate indices in a query result -/

/-- C10: after a rebuild, a neighbor query never returns the same blob
index twice — every blob is assigned to exactly one cell and the nine cells
of the 3×3 block have pairwise distinct keys. -/
theorem spatialHash_query_no_duplicates (cellSize x y : ℚ)
    (blobs : List WaveFrontBlob) (prev : CellMap) (j : ℕ) :
    (SpatialHash.getNeighborIndices cellSize
      (SpatialHash.rebuild cellSize blobs prev) x y).count j ≤ 1 := by
  have hnodup : (SpatialHash.getNeighborIndices cellSize
      (SpatialHash.rebuild cellSize blobs prev) x y).Nodup := by
    rw [SpatialHash.getNeighborIndices]
    refine SpatialHash.collectCells_nodup _ ?_ ?_ _
      (SpatialHash.neighborKeys_nodup _ _)
    · intro k
      rw [SpatialHash.rebuild_apply]
      exact SpatialHash.cellIndices_nodup cellSize blobs 0 k
    · intro j2 k k2 h1 h2
      rw [SpatialHash.rebuild_apply] at h1 h2
      exact SpatialHash.cellIndices_key_unique cellSize blobs 0 j2 k k2 h1 h2
  exact List.nodup_iff_count_le_one.mp hnodup j

/-! ### C6: recycling resets in place and preserves array length -/

/-- The recycling pass never changes the number of blobs. -/
theorem recycleLoop_length (draws : ℕ → RecycleDraw) (mx my s : ℚ) :
    ∀ (bs : List WaveFrontBlob) (i : ℕ),
      (recycleLoop draws mx my s bs i).length = bs.length
  | [], _ => rfl
  | b :: rest, i => by
      simp only [recycleLoop]
      simp [recycleLoop_length draws mx my s rest (i + 1)]

/-- Elementwise description of the recycling pass. -/
theorem recycleLoop_getElem (draws : ℕ → RecycleDraw) (mx my s : ℚ) :
    ∀ (bs : List WaveFrontBlob) (i0 t : ℕ) (ht : t < bs.length)
      (ht2 : t < (recycleLoop draws mx my s bs i0).length),
      (recycleLoop draws mx my s bs i0)[t] =
        if isDead bs[t] then recycleBlob (draws (i0 + t)) mx my s bs[t]
        else bs[t]
  | [], _, t, ht, _ => absurd ht (by simp)
  | b :: rest, i0, 0, _, _ => by
      simp only [recycleLoop]
      simp
  | b :: rest, i0, t + 1, ht, ht2 => by
      simp only [recycleLoop]
      simp only [List.getElem_cons_succ]
      have hrest : t < rest.length := by simpa using ht
      have h2 := recycleLoop_getElem draws mx my s rest (i0 + 1) t hrest
        (by rw [recycleLoop_length]; exact hrest)
      rw [show i0 + (t + 1) = i0 + 1 + t by omega]
      exact h2

/-- C6: during the recycling step every blob whose lifecycle has fallen to
or below the removal threshold while dying is reset in place (repositioned
by its random draw, age 0, lifecycle 0, `dying` cleared), every other blob
is untouched, and no element is removed — the array length is unchanged. -/
theorem recycleDead_resets_in_place (draws : ℕ → RecycleDraw)
    (mx my s : ℚ) (blobs : List WaveFrontBlob) (i : ℕ)
    (hi : i < blobs.length)
    (hi2 : i < (recycleDead draws mx my s blobs).length) :
    (recycleDead draws mx my s blobs).length = blobs.length ∧
    (isDead blobs[i] = true →
      (recycleDead draws mx my s blobs)[i] =
        recycleBlob (draws i) mx my s blobs[i] ∧
      (recycleDead draws mx my s blobs)[i].lifecycle = 0 ∧
      (recycleDead draws mx my s blobs)[i].dying = false ∧
      (recycleDead draws mx my s blobs)[i].age = 0) ∧
    (isDead blobs[i] = false →
      (recycleDead draws mx my s blobs)[i] = blobs[i]) := by
  simp only [recycleDead] at hi2 ⊢
  have hget := recycleLoop_getElem draws mx my s blobs 0 i hi hi2
  rw [Nat.zero_add] at hget
  refine ⟨recycleLoop_length draws mx my s blobs 0, ?_, ?_⟩
  · intro hd
    rw [hget, if_pos hd]
    exact ⟨rfl, rfl, rfl, rfl⟩
  · intro hd
    rw [hget, if_neg (by simp [hd])]

/-- A fully-faded dying blob, used by witnesses. -/
def deadBlob : WaveFrontBlob :=
  { sampleBlob with id := "blob-d", lifecycle := 0, dying := true }

/-- A concrete set of random draws, used by witnesses. -/
def sampleRecycleDraw : RecycleDraw :=
  { rx := 1/2, ry := 1/2, rvx := 1/2, rvy := 1/2, rdir := 0, rsize := 1/2,
    rcolor := 2 }

/-- Witness for C6 on a two-blob array whose first blob is dead. -/
theorem recycleDead_resets_in_place_witness :
    (0 < ([deadBlob, sampleBlob] : List WaveFrontBlob).length ∧
      0 < (recycleDead (fun _ => sampleRecycleDraw) 860 440 50
            [deadBlob, sampleBlob]).length) ∧
    ((recycleDead (fun _ => sampleRecycleDraw) 860 440 50
        [deadBlob, sampleBlob]).length =
          ([deadBlob, sampleBlob] : List WaveFrontBlob).length ∧
    (isDead ([deadBlob, sampleBlob] : List WaveFrontBlob)[0] = true →
      (recycleDead (fun _ => sampleRecycleDraw) 860 440 50
          [deadBlob, sampleBlob])[0] =
        recycleBlob sampleRecycleDraw 860 440 50
          ([deadBlob, sampleBlob] : List WaveFrontBlob)[0] ∧
      (recycleDead (fun _ => sampleRecycleDraw) 860 440 50
          [deadBlob, sampleBlob])[0].lifecycle = 0 ∧
      (recycleDead (fun _ => sampleRecycleDraw) 860 440 50
          [deadBlob, sampleBlob])[0].dying = false ∧
      (recycleDead (fun _ => sampleRecycleDraw) 860 440 50
          [deadBlob, sampleBlob])[0].age = 0) ∧
    (isDead ([deadBlob, sampleBlob] : List WaveFrontBlob)[0] = false →
      (recycleDead (fun _ => sampleRecycleDraw) 860 440 50
          [deadBlob, sampleBlob])[0] =
        ([deadBlob, sampleBlob] : List WaveFrontBlob)[0])) :=
  ⟨⟨by norm_num, by rw [recycleDead, recycleLoop_length]; norm_num⟩,
    recycleDead_resets_in_place (fun _ => sampleRecycleDraw) 860 440 50
      [deadBlob, sampleBlob] 0 (by norm_num)
      (by rw [recycleDead, recycleLoop_length]; norm_num)⟩

/-! ### C5: what the hard-cap cull keeps -/

/-- 401 blobs with ages 0 through 400, in age-ascending order; blob `i` has
age `i`, so index 0 is the newest and index 400 the oldest. -/
def cullTestBlobs : List WaveFrontBlob :=
  (List.range 401).map fun i => { sampleBlob with age := i }

/-- `cullTestBlobs` is already sorted by the cull's age comparator. -/
theorem cullTestBlobs_sorted :
    List.Pairwise (fun a b => ageLe a b = true) cullTestBlobs := by
  rw [cullTestBlobs]
  refine List.Pairwise.map _ ?_ (List.pairwise_lt_range 401)
  intro a b hab
  simp only [ageLe, decide_eq_true_eq]
  omega

/-- On the sorted test array the cull reduces to dropping the first 51
elements (the 51 newest blobs). -/
theorem hardCapCull_cullTestBlobs :
    hardCapCull cullTestBlobs = cullTestBlobs.drop 51 := by
  rw [hardCapCull, if_pos (by simp [cullTestBlobs, HARD_CAP_LIMIT])]
  rw [List.mergeSort_of_sorted cullTestBlobs_sorted]
  norm_num [cullTestBlobs, HARD_CAP_TARGET]

/-- C5 (counterexample): on 401 blobs with ages 0..400 the cull keeps 350
blobs, among them the oldest blob (age 400), while the newest blobs are
discarded (the first kept blob has age 51) — the cull keeps the *oldest* K,
not the newest K as claimed. -/
theorem hardCapCull_keeps_oldest_counterexample :
    (hardCapCull cullTestBlobs).length = 350 ∧
    ((hardCapCull cullTestBlobs).getD 349 sampleBlob).age = 400 ∧
    ((hardCapCull cullTestBlobs).getD 0 sampleBlob).age = 51 := by
  rw [hardCapCull_cullTestBlobs]
  refine ⟨by simp [cullTestBlobs], ?_, ?_⟩
  · rw [List.getD_eq_getElem _ _ (by simp [cullTestBlobs])]
    simp [cullTestBlobs]
  · rw [List.getD_eq_getElem _ _ (by simp [cullTestBlobs])]
    simp [cullTestBlobs]

/-- C5 (amended): when the population exceeds `HARD_CAP_LIMIT`, the
emergency cull sorts by age ascending and keeps the `HARD_CAP_TARGET`
blobs of largest age — the oldest ones — discarding a set of blobs each of
which is no older than every kept blob. -/
theorem hardCapCull_keeps_oldest (bs : List WaveFrontBlob)
    (h : HARD_CAP_LIMIT < bs.length) :
    (hardCapCull bs).length = HARD_CAP_TARGET ∧
    ∃ removed : List WaveFrontBlob,
      removed.length = bs.length - HARD_CAP_TARGET ∧
      bs.Perm (removed ++ hardCapCull bs) ∧
      ∀ r ∈ removed, ∀ kept ∈ hardCapCull bs, r.age ≤ kept.age := by
  have hlen : (bs.mergeSort ageLe).length = bs.length :=
    List.length_mergeSort bs
  have hHL : HARD_CAP_TARGET ≤ bs.length := by
    rw [HARD_CAP_TARGET]
    rw [HARD_CAP_LIMIT] at h
    omega
  rw [hardCapCull, if_pos h]
  refine ⟨by rw [List.length_drop, hlen]; rw [HARD_CAP_TARGET] at hHL ⊢; omega,
    (bs.mergeSort ageLe).take (bs.length - HARD_CAP_TARGET), ?_, ?_, ?_⟩
  · rw [List.length_take, hlen]
    omega
  · rw [List.take_append_drop]
    exact (List.mergeSort_perm bs ageLe).symm
  · intro r hr kept hkept
    have hsorted : List.Pairwise (fun a b => ageLe a b = true)
        (bs.mergeSort ageLe) := by
      refine List.sorted_mergeSort ?_ ?_ bs
      · intro a b c hab hbc
        simp only [ageLe, decide_eq_true_eq] at hab hbc ⊢
        omega
      · intro a b
        simp only [ageLe, Bool.or_eq_true, decide_eq_true_eq]
        omega
    rw [← List.take_append_drop (bs.length - HARD_CAP_TARGET)
      (bs.mergeSort ageLe)] at hsorted
    have hcross := (List.pairwise_append.mp hsorted).2.2 r hr kept hkept
    simpa [ageLe] using hcross

/-- Witness for the amended C5 on the 401-blob test array. -/
theorem hardCapCull_keeps_oldest_witness :
    (HARD_CAP_LIMIT < cullTestBlobs.length) ∧
    ((hardCapCull cullTestBlobs).length = HARD_CAP_TARGET ∧
    ∃ removed : List WaveFrontBlob,
      removed.length = cullTestBlobs.length - HARD_CAP_TARGET ∧
      cullTestBlobs.Perm (removed ++ hardCapCull cullTestBlobs) ∧
      ∀ r ∈ removed, ∀ kept ∈ hardCapCull cullTestBlobs,
        r.age ≤ kept.age) :=
  ⟨by simp [cullTestBlobs, HARD_CAP_LIMIT],
    hardCapCull_keeps_oldest cullTestBlobs
      (by simp [cullTestBlobs, HARD_CAP_LIMIT])⟩

/-! ### C3: population bounds across frames -/

/-- Marking one blob as dying never changes the array length. -/
theorem setDyingAt_length :
    ∀ (bs : List WaveFrontBlob) (i : ℕ), (setDyingAt bs i).length = bs.length
  | [], _ => rfl
  | _ :: _, 0 => by simp [setDyingAt]
  | b :: rest, n + 1 => by simp [setDyingAt, setDyingAt_length rest n]

/-- The death-marking step never changes the array length. -/
theorem markOldestDying_length (k : Bool) (bs : List WaveFrontBlob) :
    (markOldestDying k bs).length = bs.length := by
  rw [markOldestDying]
  by_cases hc : k = true ∧ MIN_POPULATION < aliveCount bs
  · rw [if_pos hc]
    cases hfind : findOldest bs 0 (-1) none with
    | some i => simp [setDyingAt_length]
    | none => rfl
  · rw [if_neg hc]

/-- The edge-recycling step never changes the array length. -/
theorem edgeMark_length (vw vh : ℚ) (bs : List WaveFrontBlob) :
    (edgeMark vw vh bs).length = bs.length := by
  simp [edgeMark]

/-- The spawn step only appends. -/
theorem spawnStep_length_ge (seeding : Bool) (sc : ℕ) (vw vh base : ℚ)
    (draws : ℕ → SpawnDraw) (bs : List WaveFrontBlob) :
    bs.length ≤ (spawnStep seeding sc vw vh base draws bs).length := by
  simp only [spawnStep]
  split
  · simp
  · exact le_refl _

/-- The emergency re-seed only appends. -/
theorem reseedStep_length_ge (vw vh base : ℚ) (draws : ℕ → SpawnDraw)
    (bs : List WaveFrontBlob) :
    bs.length ≤ (reseedStep vw vh base draws bs).length := by
  simp only [reseedStep]
  split
  · simp
  · exact le_refl _

/-- After the hard-cap cull the population is at most `HARD_CAP_LIMIT`. -/
theorem hardCapCull_length_le (bs : List WaveFrontBlob) :
    (hardCapCull bs).length ≤ HARD_CAP_LIMIT := by
  rw [hardCapCull]
  split
  · rw [List.length_drop, List.length_mergeSort]
    rw [HARD_CAP_LIMIT, HARD_CAP_TARGET]
    omega
  · rename_i hc
    rw [HARD_CAP_LIMIT] at hc ⊢
    omega

/-- The hard-cap cull never drops the population below `MIN_POPULATION`. -/
theorem hardCapCull_length_ge (bs : List WaveFrontBlob)
    (h : MIN_POPULATION ≤ bs.length) :
    MIN_POPULATION ≤ (hardCapCull bs).length := by
  rw [hardCapCull]
  split
  · rename_i hc
    rw [List.length_drop, List.length_mergeSort]
    rw [MIN_POPULATION]
    rw [HARD_CAP_LIMIT] at hc
    rw [HARD_CAP_TARGET]
    omega
  · exact h

/-- Single-frame preservation: a frame that starts with at least
`MIN_POPULATION` blobs ends inside `[MIN_POPULATION, HARD_CAP_LIMIT]`. -/
theorem frameStep_length_bounds (inp : FrameInput) (bs : List WaveFrontBlob)
    (hm : ∀ l, (inp.motion l).length = l.length)
    (hge : MIN_POPULATION ≤ bs.length) :
    MIN_POPULATION ≤ (frameStep inp bs).length ∧
      (frameStep inp bs).length ≤ HARD_CAP_LIMIT := by
  have heq : frameStep inp bs =
      hardCapCull (reseedStep inp.viewportW inp.viewportH inp.baseBlobSize
        inp.reseedDraws (edgeMark inp.viewportW inp.viewportH
          (markOldestDying inp.shouldKillOldest
            (spawnStep inp.isSeeding inp.spawnCount inp.viewportW
              inp.viewportH inp.baseBlobSize inp.spawnDraws
              (recycleDead inp.recycleDraws (inp.viewportW / 2 - 100)
                (inp.viewportH / 2 - 100) inp.baseBlobSize
                ((inp.motion bs).map (lifecycleStep inp.deltaMs))))))) := rfl
  rw [heq]
  have h2 : ((inp.motion bs).map (lifecycleStep inp.deltaMs)).length =
      bs.length := by simp [hm bs]
  have h3 : (recycleDead inp.recycleDraws (inp.viewportW / 2 - 100)
      (inp.viewportH / 2 - 100) inp.baseBlobSize
      ((inp.motion bs).map (lifecycleStep inp.deltaMs))).length =
        bs.length := by
    rw [recycleDead, recycleLoop_length, h2]
  have h4 := spawnStep_length_ge inp.isSeeding inp.spawnCount inp.viewportW
    inp.viewportH inp.baseBlobSize inp.spawnDraws
    (recycleDead inp.recycleDraws (inp.viewportW / 2 - 100)
      (inp.viewportH / 2 - 100) inp.baseBlobSize
      ((inp.motion bs).map (lifecycleStep inp.deltaMs)))
  have h5 := markOldestDying_length inp.shouldKillOldest
    (spawnStep inp.isSeeding inp.spawnCount inp.viewportW inp.viewportH
      inp.baseBlobSize inp.spawnDraws
      (recycleDead inp.recycleDraws (inp.viewportW / 2 - 100)
        (inp.viewportH / 2 - 100) inp.baseBlobSize
        ((inp.motion bs).map (lifecycleStep inp.deltaMs))))
  have h6 := edgeMark_length inp.viewportW inp.viewportH
    (markOldestDying inp.shouldKillOldest
      (spawnStep inp.isSeeding inp.spawnCount inp.viewportW inp.viewportH
        inp.baseBlobSize inp.spawnDraws
        (recycleDead inp.recycleDraws (inp.viewportW / 2 - 100)
          (inp.viewportH / 2 - 100) inp.baseBlobSize
          ((inp.motion bs).map (lifecycleStep inp.deltaMs)))))
  have h7 := reseedStep_length_ge inp.viewportW inp.viewportH
    inp.baseBlobSize inp.reseedDraws
    (edgeMark inp.viewportW inp.viewportH
      (markOldestDying inp.shouldKillOldest
        (spawnStep inp.isSeeding inp.spawnCount inp.viewportW inp.viewportH
          inp.baseBlobSize inp.spawnDraws
          (recycleDead inp.recycleDraws (inp.viewportW / 2 - 100)
            (inp.viewportH / 2 - 100) inp.baseBlobSize
            ((inp.motion bs).map (lifecycleStep inp.deltaMs))))))
  have hge7 : MIN_POPULATION ≤ (reseedStep inp.viewportW inp.viewportH
      inp.baseBlobSize inp.reseedDraws
      (edgeMark inp.viewportW inp.viewportH
        (markOldestDying inp.shouldKillOldest
          (spawnStep inp.isSeeding inp.spawnCount inp.viewportW
            inp.viewportH inp.baseBlobSize inp.spawnDraws
            (recycleDead inp.recycleDraws (inp.viewportW / 2 - 100)
              (inp.viewportH / 2 - 100) inp.baseBlobSize
              ((inp.motion bs).map (lifecycleStep inp.deltaMs))))))).length := by
    omega
  exact ⟨hardCapCull_length_ge _ hge7, hardCapCull_length_le _⟩

/-- Population bounds carried through any run of frames. -/
theorem foldl_frameStep_bounds :
    ∀ (inputs : List FrameInput) (bs : List WaveFrontBlob),
      (∀ inp ∈ inputs, ∀ l, (inp.motion l).length = l.length) →
      MIN_POPULATION ≤ bs.length → bs.length ≤ HARD_CAP_LIMIT →
      MIN_POPULATION ≤
          (inputs.foldl (fun acc inp => frameStep inp acc) bs).length ∧
        (inputs.foldl (fun acc inp => frameStep inp acc) bs).length ≤
          HARD_CAP_LIMIT
  | [], _, _, h1, h2 => ⟨h1, h2⟩
  | inp :: rest, bs, hm, h1, _ => by
      rw [List.foldl_cons]
      have hstep := frameStep_length_bounds inp bs (hm inp (by simp)) h1
      exact foldl_frameStep_bounds rest (frameStep inp bs)
        (fun i hi l => hm i (by simp [hi]) l) hstep.1 hstep.2

/-- C3: once the population is inside `[MIN_POPULATION, HARD_CAP_LIMIT]`
(as it is when seeding completes), every further run of frames keeps it
there: the end-of-frame population never drops below the floor and never
exceeds the hard ceiling; moreover the age-based death decision is skipped
(the array is returned unchanged) whenever the count of non-dying blobs is
at or below `MIN_POPULATION`. -/
theorem population_bounds_after_seeding (inputs : List FrameInput)
    (blobs : List WaveFrontBlob)
    (hmotion : ∀ inp ∈ inputs, ∀ l, (inp.motion l).length = l.length)
    (hlo : MIN_POPULATION ≤ blobs.length)
    (hhi : blobs.length ≤ HARD_CAP_LIMIT) :
    (MIN_POPULATION ≤
        (inputs.foldl (fun acc inp => frameStep inp acc) blobs).length ∧
      (inputs.foldl (fun acc inp => frameStep inp acc) blobs).length ≤
        HARD_CAP_LIMIT) ∧
    ∀ (k : Bool) (bs : List WaveFrontBlob),
      aliveCount bs ≤ MIN_POPULATION → markOldestDying k bs = bs := by
  refine ⟨foldl_frameStep_bounds inputs blobs hmotion hlo hhi, ?_⟩
  intro k bs h
  rw [markOldestDying, if_neg]
  exact fun hc => absurd hc.2 (not_lt.mpr h)

/-- A concrete spawn draw, used by witnesses. -/
def sampleSpawnDraw : SpawnDraw :=
  { idStr := "blob-s", rx := 1/2, ry := 1/2, rvx := 1/2, rvy := 1/2,
    rdir := 0, rsize := 1/2, rcolor := 1 }

/-- A concrete frame input with identity motion, used by witnesses. -/
def sampleFrameInput : FrameInput :=
  { deltaMs := 16, spawnCount := 1, shouldKillOldest := true,
    isSeeding := false, viewportW := 1920, viewportH := 1080,
    baseBlobSize := 50, motion := fun l => l,
    recycleDraws := fun _ => sampleRecycleDraw,
    spawnDraws := fun _ => sampleSpawnDraw,
    reseedDraws := fun _ => sampleSpawnDraw }

/-- Witness for C3: one frame over a 40-blob population. -/
theorem population_bounds_after_seeding_witness :
    ((∀ inp ∈ [sampleFrameInput], ∀ l : List WaveFrontBlob,
        (inp.motion l).length = l.length) ∧
      MIN_POPULATION ≤ (List.replicate 40 sampleBlob).length ∧
      (List.replicate 40 sampleBlob).length ≤ HARD_CAP_LIMIT) ∧
    ((MIN_POPULATION ≤
        (([sampleFrameInput].foldl (fun acc inp => frameStep inp acc)
          (List.replicate 40 sampleBlob)).length) ∧
      (([sampleFrameInput].foldl (fun acc inp => frameStep inp acc)
          (List.replicate 40 sampleBlob)).length) ≤ HARD_CAP_LIMIT) ∧
    ∀ (k : Bool) (bs : List WaveFrontBlob),
      aliveCount bs ≤ MIN_POPULATION → markOldestDying k bs = bs) :=
  ⟨⟨by intro inp hin l; simp at hin; subst hin; rfl,
      by simp [MIN_POPULATION], by simp [HARD_CAP_LIMIT]⟩,
    population_bounds_after_seeding [sampleFrameInput]
      (List.replicate 40 sampleBlob)
      (by intro inp hin l; simp at hin; subst hin; rfl)
      (by simp [MIN_POPULATION]) (by simp [HARD_CAP_LIMIT])⟩
